import Mathlib

/-!
Shallow embedding of the Voicepal thought-explorer program
(src/transcribe_audio.py): the resilient Gemini client
(`call_gemini_api_structured`, `call_gemini_api_debate`) and the
session/conversation engine (`VoicepalApp` state and its operations),
together with theorems checking the specification's claims against it.

The network boundary is abstracted by an oracle `Nat → _` giving the
outcome of each successive HTTP attempt; everything the Python code does
with those outcomes (retry classification, backoff sleeps, result
extraction) is embedded explicitly.
-/

namespace Voicepal

/-- The API key constant exactly as shipped in the source configuration
(`API_KEY = ""`). -/
def API_KEY : String := ""

/-- Message of the `ValueError` raised by both client operations when the
key is empty (`raise ValueError("API Key is missing.")`). -/
def apiKeyMissingMsg : String := "API Key is missing."

/-- The attempt budget of both client operations (Python `max_retries=5`). -/
def max_retries : Nat := 5

/-- A parsed structured payload: the `json.loads` output viewed through the
two schema fields the program reads (`corrected_text`,
`challenge_questions`); either may be absent in a rogue payload, matching
the code's duck-typed `.get` accesses. -/
structure StructValue where
  corrected_text : Option String
  challenge_questions : Option (List String)
deriving DecidableEq

/-- Outcome of one HTTP attempt of `call_gemini_api_structured`:
`netFail` covers a transport error, a non-success status
(`raise_for_status`) and a non-JSON response body (all caught and
retried); `okEmpty` is a success status whose extracted candidate text is
missing or empty (`if json_text:` is false, the function returns `None`
at once); `okUnparseable` is a present candidate text on which
`json.loads` raises (caught and retried); `okParsed v` is a present
candidate text that parses to the payload `v`. -/
inductive SAttempt where
  | netFail
  | okEmpty
  | okUnparseable
  | okParsed (v : StructValue)
deriving DecidableEq

/-- Outcome of one HTTP attempt of `call_gemini_api_debate`: `netFail` as
above (caught and retried); `okText t` is a success status whose
extracted candidate text is `t` (`none` when the field is absent), which
the function returns directly. -/
inductive CAttempt where
  | netFail
  | okText (t : Option String)
deriving DecidableEq

/-- Observable outcome of one client call: the returned value, how many
HTTP attempts were issued, and the sequence of `time.sleep` waits
performed. -/
structure RunResult (α : Type) where
  result : Option α
  attemptsMade : Nat
  sleeps : List Nat
deriving DecidableEq

/-- Whether a structured attempt lands in the code's `except` clause and
is retried with backoff. -/
def sRetried : SAttempt → Bool
  | .netFail => true
  | .okUnparseable => true
  | .okEmpty => false
  | .okParsed _ => false

/-- Whether a chat attempt lands in the code's `except` clause and is
retried with backoff. -/
def cRetried : CAttempt → Bool
  | .netFail => true
  | .okText _ => false

/-- The `for attempt in range(max_retries)` loop of
`call_gemini_api_structured`: `runS a f o` runs with current attempt
index `a`, `f` iterations left, consuming attempt outcomes from the
oracle `o` (shifted as the loop advances). A retried failure sleeps
`2 ^ attempt` before the next iteration. -/
def runS : Nat → Nat → (Nat → SAttempt) → RunResult StructValue
  | _, 0, _ => { result := none, attemptsMade := 0, sleeps := [] }
  | a, f + 1, o =>
    match o 0 with
    | .okParsed v => { result := some v, attemptsMade := 1, sleeps := [] }
    | .okEmpty => { result := none, attemptsMade := 1, sleeps := [] }
    | .netFail | .okUnparseable =>
      let r := runS (a + 1) f (fun i => o (i + 1))
      { result := r.result, attemptsMade := r.attemptsMade + 1, sleeps := 2 ^ a :: r.sleeps }

/-- The retry loop of `call_gemini_api_debate`, same shape as `runS` but
returning the extracted candidate text directly. -/
def runC : Nat → Nat → (Nat → CAttempt) → RunResult String
  | _, 0, _ => { result := none, attemptsMade := 0, sleeps := [] }
  | a, f + 1, o =>
    match o 0 with
    | .okText t => { result := t, attemptsMade := 1, sleeps := [] }
    | .netFail =>
      let r := runC (a + 1) f (fun i => o (i + 1))
      { result := r.result, attemptsMade := r.attemptsMade + 1, sleeps := 2 ^ a :: r.sleeps }

/-- `call_gemini_api_structured(user_text, system_instruction, response_schema)`:
checks the key before the loop and raises `ValueError` when it is empty;
otherwise runs the 5-attempt retry loop. `user_text` and
`system_instruction` only shape the outbound payload, whose server
behavior the oracle abstracts. -/
def call_gemini_api_structured (apiKey user_text system_instruction : String)
    (o : Nat → SAttempt) : Except String (RunResult StructValue) :=
  if apiKey.isEmpty then .error apiKeyMissingMsg
  else .ok (runS 0 max_retries o)

/-- Role of a debate turn (`"user"` / `"assistant"` in the Python dicts). -/
inductive Role where
  | user
  | assistant
deriving DecidableEq

/-- The expected role of the turn after one of role `r` in an alternating
exchange. -/
def Role.other : Role → Role
  | .user => .assistant
  | .assistant => .user

/-- One entry of `self.debate_history`. -/
structure DebateTurn where
  role : Role
  text : String
deriving DecidableEq

/-- `call_gemini_api_debate(contents_list, system_instruction)`: checks the
key before the loop and raises `ValueError` when it is empty; otherwise
runs the 5-attempt retry loop. `contents_list` and `system_instruction`
only shape the outbound payload, whose server behavior the oracle
abstracts. -/
def call_gemini_api_debate (apiKey : String) (contents_list : List DebateTurn)
    (system_instruction : String) (o : Nat → CAttempt) : Except String (RunResult String) :=
  if apiKey.isEmpty then .error apiKeyMissingMsg
  else .ok (runC 0 max_retries o)

/-- One entry of `self.conversation_history`, appended by `confirm_focus`. -/
structure HistoryEntry where
  step : Nat
  thought : String
  focus_question : String
deriving DecidableEq

/-- The session-relevant mutable state of `VoicepalApp`: debate flag,
current card selection, the pending structured result
(`current_step_data`), the confirmed history, the step counter and the
debate turn list. Widget/layout state is out of scope. -/
structure AppState where
  is_debating : Bool
  selected_question : Option String
  current_step_data : Option StructValue
  conversation_history : List HistoryEntry
  current_step : Nat
  debate_history : List DebateTurn
deriving DecidableEq

/-- The state established by `VoicepalApp.__init__`. -/
def initState : AppState :=
  { is_debating := false
    selected_question := none
    current_step_data := none
    conversation_history := []
    current_step := 1
    debate_history := [] }

/-- Outcome of one engine operation: the state afterwards, tagged with
whether the operation succeeded, was rejected up front
(`messagebox.showwarning`, the spec's ValidationError) or failed after
the API call returned null (the spec's ProcessingFailed). -/
inductive OpResult where
  | ok (s : AppState)
  | validationError (s : AppState)
  | processingFailed (s : AppState)
deriving DecidableEq

/-- The session state after an operation, whatever its outcome. -/
def OpResult.after : OpResult → AppState
  | .ok s => s
  | .validationError s => s
  | .processingFailed s => s

/-- Python's `str.startswith`, evaluated over the character lists. -/
def startswith (s pre : String) : Bool :=
  pre.data.isPrefixOf s.data

/-- The placeholder texts `process_input_threaded` rejects via
`startswith`. -/
def placeholderStarts (raw : String) : Bool :=
  startswith raw "Start a new thought here..." ||
  startswith raw "Enter your response here..." ||
  startswith raw "Enter your counter-argument here..."

/-- The debate-mode input placeholder checked by `send_rebuttal_threaded`. -/
def counterPlaceholder : String := "Enter your counter-argument here..."

/-- The canned reply `_run_debate_turn` substitutes when the chat call
returns `None` after exhausting retries. -/
def failRebuttalMsg : String :=
  "AI failed to generate a rebuttal after multiple retries. Try ending and restarting the debate."

/-- The assistant text `_run_debate_turn` ends up appending, given the
chat client's return value (`none` = null after retries; an empty string
is also falsy in `if not ai_rebuttal`). -/
def aiText : Option String → String
  | some t => if t = "" then failRebuttalMsg else t
  | none => failRebuttalMsg

/-- `_run_debate_turn`: calls the chat API on `debate_history` (its
return value abstracted as `reply`) and always appends an assistant turn
carrying either the reply or the canned failure message. -/
def run_debate_turn (s : AppState) (reply : Option String) : AppState :=
  { s with debate_history :=
      s.debate_history ++ [{ role := Role.assistant, text := aiText reply }] }

/-- `process_input_threaded` / `_run_thought_processing` (guided mode):
rejects empty or placeholder input before any call; `apiResult` is the
structured client's return value. A null (or falsy `{}`) result goes to
`_handle_error` leaving the session state unchanged; a truthy result is
stored as `current_step_data`, and `create_question_cards` resets the
selection. -/
def process_input (s : AppState) (raw_text : String) (apiResult : Option StructValue) :
    OpResult :=
  if raw_text = "" ∨ placeholderStarts raw_text = true then .validationError s
  else
    match apiResult with
    | some r =>
      if r.corrected_text = none ∧ r.challenge_questions = none then .processingFailed s
      else .ok { s with current_step_data := some r, selected_question := none }
    | none => .processingFailed s

/-- `select_question`: records the clicked card's text as
`selected_question`. -/
def select_question (s : AppState) (question_text : String) : AppState :=
  { s with selected_question := some question_text }

/-- `confirm_focus`: rejected (warning dialog, nothing mutated) when the
selection or `current_step_data` is falsy; otherwise appends the history
entry `{step, thought: current_step_data.get("corrected_text", "N/A"),
focus_question}`, increments `current_step`, and clears the selection and
`current_step_data`. -/
def confirm_focus (s : AppState) : OpResult :=
  match s.selected_question, s.current_step_data with
  | some q, some d =>
    if q = "" ∨ (d.corrected_text = none ∧ d.challenge_questions = none) then
      .validationError s
    else
      .ok { s with
        conversation_history := s.conversation_history ++
          [{ step := s.current_step
             thought := d.corrected_text.getD "N/A"
             focus_question := q }]
        current_step := s.current_step + 1
        selected_question := none
        current_step_data := none }
  | _, _ => .validationError s

/-- `start_debate_mode`: takes the initial argument from
`current_step_data.get("corrected_text")` only (no fallback to the
confirmed history); warns and does nothing when it is missing, empty or
`"N/A"`; otherwise `set_gui_mode('DEBATE')` clears `debate_history` and
sets the flag, the argument is appended as the seed user turn, and
`send_rebuttal_threaded` immediately runs the first AI turn (at one turn
of history it appends no user turn). -/
def start_debate_mode (s : AppState) (reply : Option String) : OpResult :=
  match (match s.current_step_data with
         | some d => d.corrected_text
         | none => none) with
  | none => .validationError s
  | some arg =>
    if arg = "" ∨ arg = "N/A" then .validationError s
    else
      .ok (run_debate_turn
        { s with is_debating := true
                 debate_history := [{ role := Role.user, text := arg }] }
        reply)

/-- `send_rebuttal_threaded` followed by `_run_debate_turn`: on a
subsequent turn (more than one turn of history) an empty or placeholder
rebuttal is rejected with a warning; otherwise the user turn is appended
(only on subsequent turns) and the AI turn runs, appending an assistant
turn built from the chat client's return value `reply`. -/
def send_rebuttal (s : AppState) (user_rebuttal : String) (reply : Option String) :
    OpResult :=
  if 1 < s.debate_history.length ∧ (user_rebuttal = "" ∨ user_rebuttal = counterPlaceholder)
  then .validationError s
  else
    .ok (run_debate_turn
      (if 1 < s.debate_history.length then
        { s with debate_history :=
            s.debate_history ++ [{ role := Role.user, text := user_rebuttal }] }
       else s)
      reply)

/-- `end_debate`: `set_gui_mode('GUIDED')` (which also clears the
selection via `create_question_cards([])`), then clears `debate_history`,
resets `current_step` to 1, clears `conversation_history` and
`current_step_data`. -/
def end_debate (s : AppState) : AppState :=
  { s with is_debating := false
           selected_question := none
           debate_history := []
           current_step := 1
           conversation_history := []
           current_step_data := none }

/-- The session states reachable through the UI: starting from
`__init__`, in guided mode the user can process a thought, select a
question card, confirm the focus or start a debate; in debate mode the
user can send a rebuttal or end the debate (the buttons are rebound /
hidden per mode by `set_gui_mode`). Oracle arguments stand for the
user-entered text and the client calls' return values. -/
inductive Reachable : AppState → Prop where
  | init : Reachable initState
  | process (s : AppState) (raw : String) (r : Option StructValue) :
      Reachable s → s.is_debating = false → Reachable (process_input s raw r).after
  | select (s : AppState) (q : String) :
      Reachable s → s.is_debating = false → Reachable (select_question s q)
  | confirm (s : AppState) :
      Reachable s → s.is_debating = false → Reachable (confirm_focus s).after
  | startDebate (s : AppState) (reply : Option String) :
      Reachable s → s.is_debating = false → Reachable (start_debate_mode s reply).after
  | rebuttal (s : AppState) (txt : String) (reply : Option String) :
      Reachable s → s.is_debating = true → Reachable (send_rebuttal s txt reply).after
  | endDebate (s : AppState) :
      Reachable s → s.is_debating = true → Reachable (end_debate s)

/-! ### Retry-loop characterizations -/

lemma ball_shift (R : Nat → Prop) (n : Nat) (h0 : R 0) :
    (∀ i < n + 1, R i) ↔ ∀ i < n, R (i + 1) := by
  constructor
  · intro h i hi
    exact h (i + 1) (by omega)
  · intro h i hi
    cases i with
    | zero => exact h0
    | succ j => exact h j (by omega)

lemma bex_prefix_shift (R P : Nat → Prop) (n : Nat) (h0 : R 0) (hn : ¬ P 0) :
    (∃ i < n + 1, (∀ j < i, R j) ∧ P i) ↔
      ∃ i < n, (∀ j < i, R (j + 1)) ∧ P (i + 1) := by
  constructor
  · rintro ⟨i, hi, hall, hp⟩
    cases i with
    | zero => exact absurd hp hn
    | succ j =>
      exact ⟨j, by omega, fun k hk => hall (k + 1) (by omega), hp⟩
  · rintro ⟨i, hi, hall, hp⟩
    refine ⟨i + 1, by omega, fun j hj => ?_, hp⟩
    cases j with
    | zero => exact h0
    | succ k => exact hall k (by omega)

lemma bex_false_of_head (R P : Nat → Prop) (n : Nat) (h0 : ¬ R 0) (hn : ¬ P 0) :
    ¬ ∃ i < n + 1, (∀ j < i, R j) ∧ P i := by
  rintro ⟨i, hi, hall, hp⟩
  cases i with
  | zero => exact hn hp
  | succ j => exact h0 (hall 0 (by omega))

lemma runS_result_none (f : Nat) : ∀ (a : Nat) (o : Nat → SAttempt),
    (runS a f o).result = none ↔
      (∀ i < f, sRetried (o i) = true) ∨
      ∃ i < f, (∀ j < i, sRetried (o j) = true) ∧ o i = SAttempt.okEmpty := by
  induction f with
  | zero =>
    intro a o
    simp [runS]
  | succ n ih =>
    intro a o
    cases h : o 0 with
    | okParsed v =>
      simp only [runS, h]
      constructor
      · intro hc
        exact absurd hc (by simp)
      · rintro (hall | hex)
        · have := hall 0 (by omega)
          rw [h] at this
          simp [sRetried] at this
        · exact absurd hex (bex_false_of_head _ _ n (by rw [h]; simp [sRetried]) (by rw [h]; simp))
    | okEmpty =>
      simp only [runS, h]
      refine iff_of_true (by simp) (Or.inr ⟨0, by omega, fun j hj => absurd hj (by omega), h⟩)
    | netFail =>
      have h0 : sRetried (o 0) = true := by rw [h]; rfl
      have hn : ¬ o 0 = SAttempt.okEmpty := by rw [h]; simp
      simp only [runS, h]
      rw [ih (a + 1) (fun i => o (i + 1))]
      rw [ball_shift (fun i => sRetried (o i) = true) n h0,
        bex_prefix_shift (fun i => sRetried (o i) = true) (fun i => o i = SAttempt.okEmpty) n h0 hn]
    | okUnparseable =>
      have h0 : sRetried (o 0) = true := by rw [h]; rfl
      have hn : ¬ o 0 = SAttempt.okEmpty := by rw [h]; simp
      simp only [runS, h]
      rw [ih (a + 1) (fun i => o (i + 1))]
      rw [ball_shift (fun i => sRetried (o i) = true) n h0,
        bex_prefix_shift (fun i => sRetried (o i) = true) (fun i => o i = SAttempt.okEmpty) n h0 hn]

lemma runS_result_some (f : Nat) : ∀ (a : Nat) (o : Nat → SAttempt) (v : StructValue),
    (runS a f o).result = some v ↔
      ∃ i < f, (∀ j < i, sRetried (o j) = true) ∧ o i = SAttempt.okParsed v := by
  induction f with
  | zero =>
    intro a o v
    simp [runS]
  | succ n ih =>
    intro a o v
    cases h : o 0 with
    | okParsed w =>
      simp only [runS, h]
      constructor
      · intro hc
        have hwv : w = v := by simpa using hc
        exact ⟨0, by omega, fun j hj => absurd hj (by omega), by rw [h, hwv]⟩
      · rintro ⟨i, hi, hall, hp⟩
        cases i with
        | zero =>
          rw [h] at hp
          cases hp
          rfl
        | succ j =>
          have := hall 0 (by omega)
          rw [h] at this
          simp [sRetried] at this
    | okEmpty =>
      simp only [runS, h]
      constructor
      · intro hc
        exact absurd hc (by simp)
      · intro hex
        exact absurd hex (bex_false_of_head _ _ n (by rw [h]; simp [sRetried]) (by rw [h]; simp))
    | netFail =>
      have h0 : sRetried (o 0) = true := by rw [h]; rfl
      have hn : ¬ o 0 = SAttempt.okParsed v := by rw [h]; simp
      simp only [runS, h]
      rw [ih (a + 1) (fun i => o (i + 1)) v]
      rw [bex_prefix_shift (fun i => sRetried (o i) = true)
        (fun i => o i = SAttempt.okParsed v) n h0 hn]
    | okUnparseable =>
      have h0 : sRetried (o 0) = true := by rw [h]; rfl
      have hn : ¬ o 0 = SAttempt.okParsed v := by rw [h]; simp
      simp only [runS, h]
      rw [ih (a + 1) (fun i => o (i + 1)) v]
      rw [bex_prefix_shift (fun i => sRetried (o i) = true)
        (fun i => o i = SAttempt.okParsed v) n h0 hn]

lemma runC_result_none (f : Nat) : ∀ (a : Nat) (o : Nat → CAttempt),
    (runC a f o).result = none ↔
      (∀ i < f, cRetried (o i) = true) ∨
      ∃ i < f, (∀ j < i, cRetried (o j) = true) ∧ o i = CAttempt.okText none := by
  induction f with
  | zero =>
    intro a o
    simp [runC]
  | succ n ih =>
    intro a o
    cases h : o 0 with
    | okText t =>
      cases t with
      | none =>
        simp only [runC, h]
        refine iff_of_true (by simp) (Or.inr ⟨0, by omega, fun j hj => absurd hj (by omega), h⟩)
      | some x =>
        simp only [runC, h]
        constructor
        · intro hc
          exact absurd hc (by simp)
        · rintro (hall | hex)
          · have := hall 0 (by omega)
            rw [h] at this
            simp [cRetried] at this
          · exact absurd hex
              (bex_false_of_head _ _ n (by rw [h]; simp [cRetried]) (by rw [h]; simp))
    | netFail =>
      have h0 : cRetried (o 0) = true := by rw [h]; rfl
      have hn : ¬ o 0 = CAttempt.okText none := by rw [h]; simp
      simp only [runC, h]
      rw [ih (a + 1) (fun i => o (i + 1))]
      rw [ball_shift (fun i => cRetried (o i) = true) n h0,
        bex_prefix_shift (fun i => cRetried (o i) = true)
          (fun i => o i = CAttempt.okText none) n h0 hn]

lemma runS_attempts_le (f : Nat) : ∀ (a : Nat) (o : Nat → SAttempt),
    (runS a f o).attemptsMade ≤ f := by
  induction f with
  | zero => intro a o; simp [runS]
  | succ n ih =>
    intro a o
    cases h : o 0 <;> simp only [runS, h] <;>
      first
        | omega
        | exact Nat.succ_le_succ (ih (a + 1) (fun i => o (i + 1)))

lemma runC_attempts_le (f : Nat) : ∀ (a : Nat) (o : Nat → CAttempt),
    (runC a f o).attemptsMade ≤ f := by
  induction f with
  | zero => intro a o; simp [runC]
  | succ n ih =>
    intro a o
    cases h : o 0 <;> simp only [runC, h] <;>
      first
        | omega
        | exact Nat.succ_le_succ (ih (a + 1) (fun i => o (i + 1)))

lemma runS_sleeps (f : Nat) : ∀ (a : Nat) (o : Nat → SAttempt),
    ∃ n ≤ f, (runS a f o).sleeps = (List.range n).map (fun i => 2 ^ (a + i)) := by
  induction f with
  | zero =>
    intro a o
    exact ⟨0, by omega, by simp [runS]⟩
  | succ m ih =>
    intro a o
    cases h : o 0 with
    | okParsed v => exact ⟨0, by omega, by simp [runS, h]⟩
    | okEmpty => exact ⟨0, by omega, by simp [runS, h]⟩
    | netFail =>
      obtain ⟨n, hn, hs⟩ := ih (a + 1) (fun i => o (i + 1))
      refine ⟨n + 1, by omega, ?_⟩
      simp only [runS, h, hs, List.range_succ_eq_map, List.map_cons, List.map_map]
      refine congrArg₂ _ (by simp) (List.map_congr_left fun i _ => ?_)
      simp only [Function.comp]
      congr 1
      omega
    | okUnparseable =>
      obtain ⟨n, hn, hs⟩ := ih (a + 1) (fun i => o (i + 1))
      refine ⟨n + 1, by omega, ?_⟩
      simp only [runS, h, hs, List.range_succ_eq_map, List.map_cons, List.map_map]
      refine congrArg₂ _ (by simp) (List.map_congr_left fun i _ => ?_)
      simp only [Function.comp]
      congr 1
      omega

lemma runC_sleeps (f : Nat) : ∀ (a : Nat) (o : Nat → CAttempt),
    ∃ n ≤ f, (runC a f o).sleeps = (List.range n).map (fun i => 2 ^ (a + i)) := by
  induction f with
  | zero =>
    intro a o
    exact ⟨0, by omega, by simp [runC]⟩
  | succ m ih =>
    intro a o
    cases h : o 0 with
    | okText t => exact ⟨0, by omega, by simp [runC, h]⟩
    | netFail =>
      obtain ⟨n, hn, hs⟩ := ih (a + 1) (fun i => o (i + 1))
      refine ⟨n + 1, by omega, ?_⟩
      simp only [runC, h, hs, List.range_succ_eq_map, List.map_cons, List.map_map]
      refine congrArg₂ _ (by simp) (List.map_congr_left fun i _ => ?_)
      simp only [Function.comp]
      congr 1
      omega

/-! ### Engine invariants -/

/-- `current_step` always counts one past the confirmed history, whether
or not a pending result exists. -/
def StepInvariant (s : AppState) : Prop :=
  s.current_step = s.conversation_history.length + 1

lemma stepInv_process (s : AppState) (raw : String) (r : Option StructValue)
    (h : StepInvariant s) : StepInvariant (process_input s raw r).after := by
  unfold StepInvariant at *
  unfold process_input
  split
  · exact h
  · split
    · split
      · exact h
      · exact h
    · exact h

lemma stepInv_select (s : AppState) (q : String) (h : StepInvariant s) :
    StepInvariant (select_question s q) := h

lemma stepInv_confirm (s : AppState) (h : StepInvariant s) :
    StepInvariant (confirm_focus s).after := by
  unfold StepInvariant at *
  unfold confirm_focus
  split
  · split
    · exact h
    · simp only [OpResult.after, List.length_append, List.length_cons, List.length_nil]
      omega
  · exact h

lemma stepInv_startDebate (s : AppState) (reply : Option String) (h : StepInvariant s) :
    StepInvariant (start_debate_mode s reply).after := by
  unfold StepInvariant at *
  unfold start_debate_mode
  split
  · exact h
  · split
    · exact h
    · exact h

lemma stepInv_rebuttal (s : AppState) (txt : String) (reply : Option String)
    (h : StepInvariant s) : StepInvariant (send_rebuttal s txt reply).after := by
  unfold StepInvariant at *
  unfold send_rebuttal
  split
  · exact h
  · simp only [OpResult.after, run_debate_turn]
    split
    · exact h
    · exact h

lemma stepInv_endDebate (s : AppState) : StepInvariant (end_debate s) := rfl

lemma stepInv_reachable (s : AppState) (h : Reachable s) : StepInvariant s := by
  induction h with
  | init => rfl
  | process s raw r _ _ ih => exact stepInv_process s raw r ih
  | select s q _ _ ih => exact stepInv_select s q ih
  | confirm s _ _ ih => exact stepInv_confirm s ih
  | startDebate s reply _ _ ih => exact stepInv_startDebate s reply ih
  | rebuttal s txt reply _ _ ih => exact stepInv_rebuttal s txt reply ih
  | endDebate s _ _ _ => exact stepInv_endDebate s

/-- Strict role alternation of a turn list, starting from the expected
role `r`. -/
def altFrom (r : Role) : List DebateTurn → Bool
  | [] => true
  | t :: ts => if t.role = r then altFrom r.other ts else false

lemma Role.other_other (r : Role) : r.other.other = r := by
  cases r <;> rfl

lemma altFrom_append (l m : List DebateTurn) : ∀ r : Role,
    altFrom r (l ++ m) =
      (altFrom r l && altFrom (if l.length % 2 = 0 then r else r.other) m) := by
  induction l with
  | nil =>
    intro r
    simp [altFrom]
  | cons t ts ih =>
    intro r
    simp only [List.cons_append, altFrom, List.length_cons, List.append_eq]
    by_cases h : t.role = r
    · have hroles : (if ts.length % 2 = 0 then r.other else r.other.other) =
          (if (ts.length + 1) % 2 = 0 then r else r.other) := by
        rcases Nat.mod_two_eq_zero_or_one ts.length with h2 | h2
        · rw [if_pos h2, if_neg (by omega)]
        · rw [if_neg (by omega), if_pos (by omega), Role.other_other]
      rw [if_pos h, if_pos h, ih r.other, hroles]
    · simp [h]

/-- The debate-mode data invariant: outside debate mode the turn list is
empty; in debate mode it is a nonempty, even-length, strictly alternating
exchange beginning with the user. -/
def DebateInvariant (s : AppState) : Prop :=
  (s.is_debating = false → s.debate_history = []) ∧
  (s.is_debating = true → altFrom Role.user s.debate_history = true ∧
    s.debate_history.length % 2 = 0 ∧ s.debate_history ≠ [])

lemma debInv_of_untouched (s s' : AppState) (h1 : s'.is_debating = s.is_debating)
    (h2 : s'.debate_history = s.debate_history) (h : DebateInvariant s) :
    DebateInvariant s' := by
  unfold DebateInvariant at *
  rw [h1, h2]
  exact h

lemma debInv_process (s : AppState) (raw : String) (r : Option StructValue)
    (h : DebateInvariant s) : DebateInvariant (process_input s raw r).after := by
  refine debInv_of_untouched s _ ?_ ?_ h <;>
    · unfold process_input
      split
      · rfl
      · split
        · split
          · rfl
          · rfl
        · rfl

lemma debInv_select (s : AppState) (q : String) (h : DebateInvariant s) :
    DebateInvariant (select_question s q) :=
  debInv_of_untouched s _ rfl rfl h

lemma debInv_confirm (s : AppState) (h : DebateInvariant s) :
    DebateInvariant (confirm_focus s).after := by
  refine debInv_of_untouched s _ ?_ ?_ h <;>
    · unfold confirm_focus
      split
      · split
        · rfl
        · rfl
      · rfl

lemma debInv_startDebate (s : AppState) (reply : Option String)
    (h : DebateInvariant s) : DebateInvariant (start_debate_mode s reply).after := by
  unfold start_debate_mode
  split
  · exact h
  · split
    · exact h
    · constructor
      · intro hf
        simp [OpResult.after, run_debate_turn] at hf
      · intro _
        refine ⟨?_, ?_, ?_⟩
        · simp [OpResult.after, run_debate_turn, altFrom, Role.other]
        · simp [OpResult.after, run_debate_turn]
        · simp [OpResult.after, run_debate_turn]

lemma debInv_rebuttal (s : AppState) (txt : String) (reply : Option String)
    (hs : s.is_debating = true) (h : DebateInvariant s) :
    DebateInvariant (send_rebuttal s txt reply).after := by
  obtain ⟨halt, heven, hne⟩ := h.2 hs
  have hpos : 0 < s.debate_history.length := List.length_pos.mpr hne
  have hlen : 1 < s.debate_history.length := by omega
  by_cases hg : 1 < s.debate_history.length ∧ (txt = "" ∨ txt = counterPlaceholder)
  · unfold send_rebuttal
    rw [if_pos hg]
    refine ⟨fun hf => ?_, fun _ => ⟨halt, heven, hne⟩⟩
    have hf2 : s.is_debating = false := hf
    rw [hf2] at hs
    exact Bool.noConfusion hs
  · unfold send_rebuttal
    rw [if_neg hg, if_pos hlen]
    constructor
    · intro hf
      simp only [OpResult.after, run_debate_turn] at hf
      rw [hf] at hs
      exact Bool.noConfusion hs
    · intro _
      simp only [OpResult.after, run_debate_turn]
      refine ⟨?_, ?_, ?_⟩
      · rw [List.append_assoc, altFrom_append, halt, if_pos heven]
        simp [altFrom, Role.other]
      · simp only [List.append_assoc, List.length_append, List.length_cons,
          List.length_nil]
        omega
      · simp

lemma debInv_endDebate (s : AppState) : DebateInvariant (end_debate s) :=
  ⟨fun _ => rfl, fun hf => by cases hf⟩

lemma debInv_reachable (s : AppState) (h : Reachable s) : DebateInvariant s := by
  induction h with
  | init => exact ⟨fun _ => rfl, fun hf => by cases hf⟩
  | process s raw r _ _ ih => exact debInv_process s raw r ih
  | select s q _ _ ih => exact debInv_select s q ih
  | confirm s _ _ ih => exact debInv_confirm s ih
  | startDebate s reply _ _ ih => exact debInv_startDebate s reply ih
  | rebuttal s txt reply _ hm ih => exact debInv_rebuttal s txt reply hm ih
  | endDebate s _ _ _ => exact debInv_endDebate s

/-! ### Concrete values used by witnesses and counterexamples -/

/-- A well-formed structured payload with exactly three questions. -/
def goodPayload : StructValue :=
  { corrected_text := some "People should work fewer hours."
    challenge_questions := some ["q1", "q2", "q3"] }

/-- A payload carrying only two challenge questions. -/
def badPayload : StructValue :=
  { corrected_text := some "People should work fewer hours."
    challenge_questions := some ["only", "two"] }

/-- Response sequence: attempt 0 has a success status with an empty
payload, every later attempt parses cleanly with three questions. -/
def oracleEmptyThenGood : Nat → SAttempt :=
  fun i => if i = 0 then SAttempt.okEmpty else SAttempt.okParsed goodPayload

/-- Response sequence: every attempt parses to the two-question payload. -/
def oracleBadArity : Nat → SAttempt :=
  fun _ => SAttempt.okParsed badPayload

/-- The specification's notion of a failed structured attempt, written
from the spec's words (network/transport error, non-success status,
empty response payload, or payload failing to parse as the declared
schema including wrong question count) for comparison with the code. -/
def sAttemptFailsSpec : SAttempt → Bool
  | .netFail => true
  | .okEmpty => true
  | .okUnparseable => true
  | .okParsed v => !((v.challenge_questions.getD []).length == 3)

/-- A guided-mode state holding a pending result and a selected focus. -/
def pendingGood : AppState :=
  { initState with selected_question := some "q2", current_step_data := some goodPayload }

/-- A guided-mode state holding a pending result and no selection. -/
def pendingOnly : AppState :=
  { initState with current_step_data := some goodPayload }

/-- A guided-mode state with a confirmed step but no pending result. -/
def confirmedNoPending : AppState :=
  { initState with
    conversation_history := [{ step := 1, thought := "X", focus_question := "q" }]
    current_step := 2 }

/-- A debate-mode state after the seeded first exchange. -/
def debateMidState : AppState :=
  { initState with
    is_debating := true
    debate_history := [{ role := Role.user, text := "A" },
                       { role := Role.assistant, text := "B" }] }

/-- The debate state reached by processing a thought and starting a
debate from the initial state. -/
def debateWitState : AppState :=
  (start_debate_mode (process_input initState "hello" (some goodPayload)).after
    (some "Reply")).after

/-! ### Claim theorems -/

/-- C10: with the shipped empty `API_KEY`, every call to the
structured-generation operation and to the chat operation raises
`ValueError("API Key is missing.")` before the retry loop or any
outbound attempt, whatever the user text, turn list or server behavior. -/
theorem shipped_key_always_raises :
    API_KEY = "" ∧
    (∀ (ut si : String) (o : Nat → SAttempt),
      call_gemini_api_structured API_KEY ut si o = .error apiKeyMissingMsg) ∧
    (∀ (turns : List DebateTurn) (si : String) (o : Nat → CAttempt),
      call_gemini_api_debate API_KEY turns si o = .error apiKeyMissingMsg) :=
  ⟨rfl, fun _ _ _ => rfl, fun _ _ _ => rfl⟩

/-- C7: each client operation makes at most 5 attempts, and the backoff
waits are `2 ^ attempt` for the consecutive failed attempts starting at
attempt 0 — a prefix of 1,2,4,8,16 — with the full sequence 1,2,4,8,16
slept when every attempt fails. -/
theorem retry_backoff_spec :
    (∀ o : Nat → SAttempt, (runS 0 max_retries o).attemptsMade ≤ 5 ∧
      ∃ n ≤ 5, (runS 0 max_retries o).sleeps = (List.range n).map (fun i => 2 ^ i)) ∧
    (∀ o : Nat → CAttempt, (runC 0 max_retries o).attemptsMade ≤ 5 ∧
      ∃ n ≤ 5, (runC 0 max_retries o).sleeps = (List.range n).map (fun i => 2 ^ i)) ∧
    (runS 0 max_retries (fun _ => SAttempt.netFail)).sleeps = [1, 2, 4, 8, 16] ∧
    (runC 0 max_retries (fun _ => CAttempt.netFail)).sleeps = [1, 2, 4, 8, 16] := by
  refine ⟨fun o => ⟨runS_attempts_le max_retries 0 o, ?_⟩,
    fun o => ⟨runC_attempts_le max_retries 0 o, ?_⟩, by decide, by decide⟩
  · obtain ⟨n, hn, hs⟩ := runS_sleeps max_retries 0 o
    exact ⟨n, hn, by simpa using hs⟩
  · obtain ⟨n, hn, hs⟩ := runC_sleeps max_retries 0 o
    exact ⟨n, hn, by simpa using hs⟩

/-- C9: `end_debate` always switches back to guided mode and performs a
full reset: empty debate turns, empty history, step counter 1, pending
result cleared. -/
theorem end_debate_full_reset (s : AppState) :
    (end_debate s).is_debating = false ∧
    (end_debate s).debate_history = [] ∧
    (end_debate s).conversation_history = [] ∧
    (end_debate s).current_step = 1 ∧
    (end_debate s).current_step_data = none :=
  ⟨rfl, rfl, rfl, rfl, rfl⟩

/-- C1 counterexample: attempt 0 succeeds at the HTTP level but carries
an empty payload, which the spec counts as a failed-and-retried attempt;
the code instead returns null at once after a single attempt, although
attempt 1 would not fail — so "null iff all 5 attempts fail" is false. -/
theorem null_iff_cex :
    call_gemini_api_structured "key" "txt" "inst" oracleEmptyThenGood =
      .ok { result := none, attemptsMade := 1, sleeps := [] } ∧
    sAttemptFailsSpec (oracleEmptyThenGood 1) = false := by
  constructor
  · rfl
  · decide

/-- C1 (amended): given a non-empty key neither operation raises, and
each returns null iff either every attempt is a retried failure
(transport error, non-success status, or unparseable payload) or a
prefix of retried failures is followed by a success-status response with
an empty payload (missing text for the chat call), which yields null at
once without further retries. -/
theorem null_iff_spec (apiKey ut si : String) (turns : List DebateTurn)
    (oS : Nat → SAttempt) (oC : Nat → CAttempt) (hk : apiKey.isEmpty = false) :
    (call_gemini_api_structured apiKey ut si oS = .ok (runS 0 max_retries oS) ∧
      ((runS 0 max_retries oS).result = none ↔
        (∀ i < max_retries, sRetried (oS i) = true) ∨
        ∃ i < max_retries, (∀ j < i, sRetried (oS j) = true) ∧ oS i = SAttempt.okEmpty)) ∧
    (call_gemini_api_debate apiKey turns si oC = .ok (runC 0 max_retries oC) ∧
      ((runC 0 max_retries oC).result = none ↔
        (∀ i < max_retries, cRetried (oC i) = true) ∨
        ∃ i < max_retries, (∀ j < i, cRetried (oC j) = true) ∧
          oC i = CAttempt.okText none)) := by
  refine ⟨⟨?_, runS_result_none max_retries 0 oS⟩, ⟨?_, runC_result_none max_retries 0 oC⟩⟩
  · simp [call_gemini_api_structured, hk]
  · simp [call_gemini_api_debate, hk]

/-- Witness: the amended C1 theorem applied with a concrete non-empty
key, discharging its hypothesis. -/
theorem null_iff_spec_witness :
    ("key".isEmpty = false) ∧
    call_gemini_api_structured "key" "txt" "inst" (fun _ => SAttempt.netFail) =
      .ok (runS 0 max_retries (fun _ => SAttempt.netFail)) :=
  ⟨by decide,
    (null_iff_spec "key" "txt" "inst" [] (fun _ => SAttempt.netFail)
      (fun _ => CAttempt.netFail) (by decide)).1.1⟩

/-- C2 counterexample: the client returns, as a success, a payload
carrying only two challenge questions; question arity is never
validated. -/
theorem three_questions_cex :
    (runS 0 max_retries oracleBadArity).result = some badPayload ∧
    (badPayload.challenge_questions.getD []).length = 2 := by decide

/-- C2 (amended): the structured client accepts exactly the payloads
that parse as JSON, with no question-count validation: the loop returns
`some v` iff some attempt, preceded only by retried failures, parses to
`v` — whatever the arity of `v.challenge_questions`. -/
theorem accepted_payload_spec (o : Nat → SAttempt) (v : StructValue) :
    (runS 0 max_retries o).result = some v ↔
      ∃ i < max_retries, (∀ j < i, sRetried (o j) = true) ∧ o i = SAttempt.okParsed v :=
  runS_result_some max_retries 0 o v

/-- C4: `confirm_focus` requires both a pending result and a selected
focus: when either is missing it fails with the validation warning and
mutates nothing; when both are present (the pending corrected text being
present) it appends `{step: current_step, thought, focus_question}` to
the history, increments `current_step`, and clears the pending result
and the selection. -/
theorem confirm_focus_spec :
    (∀ (s : AppState) (q t : String) (d : StructValue),
      s.selected_question = some q → q ≠ "" →
      s.current_step_data = some d → d.corrected_text = some t →
      confirm_focus s = .ok { s with
        conversation_history := s.conversation_history ++
          [{ step := s.current_step, thought := t, focus_question := q }]
        current_step := s.current_step + 1
        selected_question := none
        current_step_data := none }) ∧
    (∀ s : AppState, s.selected_question = none ∨ s.current_step_data = none →
      confirm_focus s = .validationError s) := by
  constructor
  · intro s q t d hq hq0 hd ht
    have hcond : ¬(q = "" ∨ (d.corrected_text = none ∧ d.challenge_questions = none)) := by
      rintro (hc | ⟨hc, -⟩)
      · exact hq0 hc
      · rw [ht] at hc
        exact Option.noConfusion hc
    unfold confirm_focus
    rw [hq, hd]
    dsimp only
    rw [if_neg hcond, ht]
    rfl
  · intro s h
    unfold confirm_focus
    rcases h with h | h
    · rw [h]
    · rw [h]
      cases s.selected_question <;> rfl

/-- Witness: `confirm_focus_spec` applied at a pending-and-selected state
and at the initial state. -/
theorem confirm_focus_spec_witness :
    confirm_focus pendingGood = .ok { pendingGood with
      conversation_history := pendingGood.conversation_history ++
        [{ step := pendingGood.current_step
           thought := "People should work fewer hours."
           focus_question := "q2" }]
      current_step := pendingGood.current_step + 1
      selected_question := none
      current_step_data := none } ∧
    confirm_focus initState = .validationError initState :=
  ⟨confirm_focus_spec.1 pendingGood "q2" "People should work fewer hours." goodPayload
      rfl (by decide) rfl rfl,
   confirm_focus_spec.2 initState (Or.inl rfl)⟩

/-- C5: in every reachable session state in which the pending result is
absent, `current_step` equals `len(conversation_history) + 1`; this is
preserved by all the engine's operations. -/
theorem step_count_invariant (s : AppState) (hs : Reachable s)
    (hpend : s.current_step_data = none) :
    s.current_step = s.conversation_history.length + 1 :=
  stepInv_reachable s hs

/-- Witness: the step-count invariant at the initial state. -/
theorem step_count_invariant_witness :
    initState.current_step = initState.conversation_history.length + 1 :=
  step_count_invariant initState Reachable.init rfl

/-- C8: in every reachable session state, a nonempty `debate_history`
strictly alternates roles beginning with a user turn; all the operations
that append to or clear it preserve this. -/
theorem debate_alternation_invariant (s : AppState) (hs : Reachable s)
    (hne : s.debate_history ≠ []) :
    altFrom Role.user s.debate_history = true := by
  cases hd : s.is_debating
  · exact absurd ((debInv_reachable s hs).1 hd) hne
  · exact ((debInv_reachable s hs).2 hd).1

/-- Witness: the alternation invariant at a concrete reachable debate
state with two turns. -/
theorem debate_alternation_invariant_witness :
    altFrom Role.user debateWitState.debate_history = true :=
  debate_alternation_invariant debateWitState
    (Reachable.startDebate (process_input initState "hello" (some goodPayload)).after
      (some "Reply")
      (Reachable.process initState "hello" (some goodPayload) Reachable.init rfl)
      (by decide))
    (by decide)

/-- C3 counterexample: at a two-turn debate state, a rebuttal whose chat
call returns null does not leave `debate_history` as appended: the code
adds an assistant turn carrying the canned failure message after the
retained user turn. -/
theorem rebuttal_null_cex :
    (send_rebuttal debateMidState "mine" none).after.debate_history =
      [{ role := Role.user, text := "A" }, { role := Role.assistant, text := "B" },
       { role := Role.user, text := "mine" },
       { role := Role.assistant, text := failRebuttalMsg }] ∧
    (send_rebuttal debateMidState "mine" none).after.debate_history ≠
      [{ role := Role.user, text := "A" }, { role := Role.assistant, text := "B" },
       { role := Role.user, text := "mine" }] := by decide

/-- C3 (amended): on a null chat reply after retries, the appended user
turn is retained but the failure is recorded by also appending an
assistant turn carrying the canned failure message (surfaced as the
opponent's reply), rather than leaving `debate_history` as appended. -/
theorem rebuttal_null_spec (s : AppState) (txt : String)
    (hlen : 1 < s.debate_history.length) (h1 : txt ≠ "") (h2 : txt ≠ counterPlaceholder) :
    send_rebuttal s txt none = .ok { s with debate_history :=
      s.debate_history ++ [{ role := Role.user, text := txt },
                           { role := Role.assistant, text := failRebuttalMsg }] } := by
  unfold send_rebuttal
  rw [if_neg (by simp [h1, h2]), if_pos hlen]
  simp [run_debate_turn, aiText]

/-- Witness: the amended C3 theorem applied at the two-turn debate
state. -/
theorem rebuttal_null_spec_witness :
    send_rebuttal debateMidState "mine" none = .ok { debateMidState with
      debate_history := debateMidState.debate_history ++
        [{ role := Role.user, text := "mine" },
         { role := Role.assistant, text := failRebuttalMsg }] } :=
  rebuttal_null_spec debateMidState "mine" (by decide) (by decide) (by decide)

/-- C6 counterexample: with no pending result and a confirmed step whose
nonempty text is "X", `start_debate_mode` fails with the validation
warning instead of seeding a debate from the last confirmed step. -/
theorem start_debate_fallback_cex :
    start_debate_mode confirmedNoPending (some "Reply") =
      .validationError confirmedNoPending ∧
    confirmedNoPending.conversation_history.map HistoryEntry.thought = ["X"] ∧
    "X" ≠ "" := by decide

/-- C6 (amended): `start_debate_mode` takes its argument only from the
pending result's corrected text — with no pending result it always fails
regardless of confirmed history — and also fails when that text is
missing, empty, or exactly "N/A"; otherwise it switches to debate mode,
seeds the turn list with the text as a single user turn, and immediately
runs the first AI turn, which appends an assistant turn. -/
theorem start_debate_spec :
    (∀ (s : AppState) (reply : Option String), s.current_step_data = none →
      start_debate_mode s reply = .validationError s) ∧
    (∀ (s : AppState) (d : StructValue) (reply : Option String),
      s.current_step_data = some d →
      d.corrected_text = none ∨ d.corrected_text = some "" ∨ d.corrected_text = some "N/A" →
      start_debate_mode s reply = .validationError s) ∧
    (∀ (s : AppState) (d : StructValue) (t : String) (reply : Option String),
      s.current_step_data = some d → d.corrected_text = some t →
      t ≠ "" → t ≠ "N/A" →
      start_debate_mode s reply = .ok { s with
        is_debating := true
        debate_history := [{ role := Role.user, text := t },
                           { role := Role.assistant, text := aiText reply }] }) := by
  refine ⟨?_, ?_, ?_⟩
  · intro s reply h
    unfold start_debate_mode
    rw [h]
  · intro s d reply hd hc
    unfold start_debate_mode
    rw [hd]
    dsimp only
    rcases hc with h | h | h
    · rw [h]
    · rw [h]
      simp
    · rw [h]
      simp
  · intro s d t reply hd hc h1 h2
    unfold start_debate_mode
    rw [hd]
    dsimp only
    rw [hc]
    dsimp only
    rw [if_neg (by simp [h1, h2])]
    rfl

/-- Witness: the amended C6 theorem applied at the initial state and at
a pending-only state. -/
theorem start_debate_spec_witness :
    start_debate_mode initState (some "Reply") = .validationError initState ∧
    start_debate_mode pendingOnly (some "Reply") = .ok { pendingOnly with
      is_debating := true
      debate_history :=
        [{ role := Role.user, text := "People should work fewer hours." },
         { role := Role.assistant, text := aiText (some "Reply") }] } :=
  ⟨start_debate_spec.1 initState (some "Reply") rfl,
   start_debate_spec.2.2 pendingOnly goodPayload "People should work fewer hours."
     (some "Reply") rfl rfl (by decide) (by decide)⟩

end Voicepal
